import Mathlib

set_option maxRecDepth 1000000

/-!
# Verification of the ACM policy diagnosis core (`pkg/mcpserver/diagnose_policy.go`)

Shallow embedding of the diagnosis pipeline: Go strings are modelled as
`List Char` (the messages involved are ASCII, where Go's byte indexing and
rune folding coincide with per-`Char` operations), Kubernetes unstructured
object trees as the inductive `JValue`, Go maps as association lists (one
concrete iteration order per list value), and Go panics / fetch errors as
`Except` errors.
-/

namespace KubeCompare

/-- Go strings, modelled as lists of characters. -/
abbrev Str := List Char

/-- `strings.Index`: index of the first occurrence of `sub` in `s`, `-1` if absent. -/
def goIndex : Str → Str → Int
  | s, sub =>
    if sub.isPrefixOf s then 0
    else
      match s with
      | [] => -1
      | _ :: t =>
        let r := goIndex t sub
        if r = -1 then -1 else r + 1

/-- `strings.Contains`. -/
def goContains (s sub : Str) : Bool :=
  goIndex s sub ≥ 0

/-- `strings.IndexAny`: index of the first character of `s` that is in `chars`, `-1` if none. -/
def goIndexAny : Str → Str → Int
  | [], _ => -1
  | c :: t, chars =>
    if c ∈ chars then 0
    else
      let r := goIndexAny t chars
      if r = -1 then -1 else r + 1

/-- `strings.ToLower`, restricted to ASCII (all message text in scope is ASCII). -/
def goToLower (s : Str) : Str :=
  s.map Char.toLower

/-- The whitespace set of `unicode.IsSpace` restricted to the characters that occur here. -/
def goIsSpace (c : Char) : Bool :=
  c = ' ' ∨ c = '\t' ∨ c = '\n' ∨ c = '\x0b' ∨ c = '\x0c' ∨ c = '\r'

/-- `strings.TrimSpace`. -/
def goTrimSpace (s : Str) : Str :=
  ((s.dropWhile goIsSpace).reverse.dropWhile goIsSpace).reverse

/-- `strings.EqualFold`, restricted to ASCII folding. -/
def goEqualFold (a b : Str) : Bool :=
  goToLower a = goToLower b

/-- `strings.Split` on a single separator character. -/
def goSplitChar : Str → Char → List Str
  | [], _ => [[]]
  | c :: t, sep =>
    let r := goSplitChar t sep
    if c = sep then [] :: r
    else
      match r with
      | [] => [[c]]
      | h :: t' => (c :: h) :: t'

/-- `strings.SplitN(s, sep, 3)` for a single-character separator. -/
def goSplitN3 (s : Str) (sep : Char) : List Str :=
  match goSplitChar s sep with
  | a :: b :: rest :: more => [a, b, List.intercalate [sep] (rest :: more)]
  | l => l

/-- `strings.SplitN(s, sep, 2)` for a single-character separator. -/
def goSplitN2 (s : Str) (sep : Char) : List Str :=
  match goSplitChar s sep with
  | a :: rest :: more => [a, List.intercalate [sep] (rest :: more)]
  | l => l

/-- Untyped Kubernetes object trees (`map[string]any` values as decoded from JSON).
Objects are association lists in some fixed field order; Go map lookup is by key,
so the list order is only observable through iteration (which Go randomizes). -/
inductive JValue where
  | null
  | bool (b : Bool)
  | num (n : Int)
  | str (s : Str)
  | arr (elems : List JValue)
  | obj (fields : List (Str × JValue))

/-- Go map lookup `m[k]` on an object's field list (`nil` when absent). -/
def jLookup (fields : List (Str × JValue)) (k : Str) : Option JValue :=
  (fields.find? (fun f => f.1 = k)).map (·.2)

/-- Go map lookup through a `JValue` that is expected to be an object. -/
def jGet (v : JValue) (k : Str) : Option JValue :=
  match v with
  | .obj fields => jLookup fields k
  | _ => none

/-- Comma-ok type assertion `x.(string)`: the string, or `""` on failure. -/
def asStr (v : Option JValue) : Str :=
  match v with
  | some (.str s) => s
  | _ => []

/-- Comma-ok type assertion `x.([]any)`: the slice, or `nil` on failure. -/
def asArr (v : Option JValue) : List JValue :=
  match v with
  | some (.arr l) => l
  | _ => []

/-- Comma-ok type assertion `x.(map[string]any)`: the map, or `nil` on failure. -/
def asObj (v : Option JValue) : Option (List (Str × JValue)) :=
  match v with
  | some (.obj fields) => some fields
  | _ => none

/-- Field-path navigation shared by the `unstructured.Nested*` accessors. -/
def nestedField : JValue → List Str → Option JValue
  | v, [] => some v
  | .obj fields, k :: ks =>
    match jLookup fields k with
    | some v => nestedField v ks
    | none => none
  | _, _ :: _ => none

/-- `unstructured.NestedString` with the found/error results discarded (`""` on failure). -/
def nestedString (v : JValue) (path : List Str) : Str :=
  match nestedField v path with
  | some (.str s) => s
  | _ => []

/-- `unstructured.NestedSlice` with the found/error results discarded (`nil` on failure). -/
def nestedSlice (v : JValue) (path : List Str) : List JValue :=
  match nestedField v path with
  | some (.arr l) => l
  | _ => []

/-- `unstructured.NestedMap` with the found/error results discarded (`nil` on failure). -/
def nestedMap (v : JValue) (path : List Str) : Option (List (Str × JValue)) :=
  match nestedField v path with
  | some (.obj fields) => some fields
  | _ => none

/-- `policy.GetNamespace()`: the `metadata.namespace` string. -/
def getNamespace (v : JValue) : Str :=
  nestedString v ["metadata".data, "namespace".data]

/-! ## Constants of `diagnose_policy.go` -/

def complianceCompliant : Str := "Compliant".data
def violationOLMStuck : Str := "olm_stuck".data
def violationMissing : Str := "resource_missing".data
def violationDrift : Str := "resource_drift".data
def violationUnknown : Str := "unknown".data
def maxViolationMessageLen : Nat := 300

/-! ## Output record types -/

/-- `suggestedCall`: the emitted next-step tool call. Args are kept in the
order the Go code inserts them (map iteration order is irrelevant to the claims). -/
structure suggestedCall where
  server : Str
  tool : Str
  args : List (Str × JValue)

/-- `diagnosedIssue`. -/
structure diagnosedIssue where
  violationType : Str
  templateName : Str
  resourceKind : Str
  resourceName : Str
  resourceNamespace : Str
  message : Str
  desiredState : Option JValue
  suggestedToolCall : Option suggestedCall

/-- `clusterDiagnosis`. -/
structure clusterDiagnosis where
  clusterName : Str
  complianceState : Str
  issues : List diagnosedIssue

/-- `diagnosis`: the sole output artifact. -/
structure diagnosis where
  policyName : Str
  namespace' : Str
  complianceState : Str
  clusters : List clusterDiagnosis
  summary : Str

/-- The desired-state index `map[string]map[string]any`, keyed by the sprintf
string `templateName/kind/name`, as an association list in one concrete
iteration order (Go randomizes map iteration; reordering lemmas quantify over
permutations). -/
abbrev DesiredStateIndex := List (Str × JValue)

/-! ## Violation-message parsing and classification -/

/-- `parseViolationResource`: extracts (kind, name, namespace) from an ACM
violation detail string, handling the `kind [name] …` and `[kind] name …`
grammars plus the `in namespace <ns>` clause. -/
def parseViolationResource (detail0 : Str) : Str × Str × Str :=
  let detail := goTrimSpace detail0
  match detail with
  | [] => ([], [], [])
  | d0 :: _ =>
    let kindName :=
      if d0 ≠ '[' then
        let openBracket := goIndex detail ['[']
        if openBracket > 0 then
          let kind := goTrimSpace (detail.take openBracket.toNat)
          let closeBracket := goIndex (detail.drop openBracket.toNat) [']']
          if closeBracket > 0 then
            (kind, (detail.drop (openBracket.toNat + 1)).take (closeBracket.toNat - 1))
          else (kind, [])
        else
          let spIdx := goIndexAny detail [' ', '\t']
          if spIdx > 0 then (detail.take spIdx.toNat, []) else ([], [])
      else
        let closeBracket := goIndex detail [']']
        if closeBracket > 0 then
          let kind := (detail.drop 1).take (closeBracket.toNat - 1)
          let rest := goTrimSpace (detail.drop (closeBracket.toNat + 1))
          let idx := goIndexAny rest [' ', '\t']
          if idx > 0 then (kind, rest.take idx.toNat)
          else if rest ≠ [] then (kind, rest)
          else (kind, [])
        else ([], [])
    let ns :=
      let nsIdx := goIndex detail ("in namespace ".data)
      if nsIdx ≥ 0 then
        let after := detail.drop (nsIdx.toNat + ("in namespace ".data).length)
        let spIdx := goIndexAny after [' ', '\t', ';', ',']
        if spIdx > 0 then after.take spIdx.toNat else after
      else []
    (kindName.1, kindName.2, ns)

/-- The ordered substring switch of `classifyAndEnrich` over the lower-cased
message (first match wins). -/
def classifyViolationMessage (lower : Str) : Str :=
  if goContains lower ("not found".data) then violationMissing
  else if goContains lower ("not as specified".data) then violationDrift
  else if goContains lower ("installplan".data) || goContains lower ("clusterserviceversion".data) then
    violationOLMStuck
  else violationUnknown

/-- The fixed OLM kind-name list of `isOLMKind`. -/
def olmKinds : List Str :=
  ["Subscription".data, "subscriptions".data, "subscriptions.operators.coreos.com".data,
   "ClusterServiceVersion".data, "clusterserviceversions".data,
   "Operator".data, "operators".data, "operators.operators.coreos.com".data,
   "InstallPlan".data, "installplans".data,
   "CatalogSource".data, "catalogsources".data]

/-- `isOLMKind`: case-insensitive membership in the OLM kind-name list. -/
def isOLMKind (kind : Str) : Bool :=
  olmKinds.any (fun k => goEqualFold kind k)

/-! ## Desired-state matching -/

/-- The exact-tier condition of `matchDesiredState`: key splits into
`templateName/kind/name` with kind equal case-insensitively and name exactly. -/
def exactTierPred (templateName rKind rName : Str) (e : Str × JValue) : Bool :=
  match goSplitN3 e.1 '/' with
  | [p0, p1, p2] => p0 == templateName && goEqualFold p1 rKind && p2 == rName
  | _ => false

/-- The flexible-tier condition: same template, kinds equal after naive
pluralization normalization, name equal exactly unless the violation has none. -/
def flexTierPred (templateName rKind rName : Str) (e : Str × JValue) : Bool :=
  match goSplitN3 e.1 '/' with
  | [p0, p1, p2] =>
    p0 == templateName &&
    (let objKind := goToLower p1
     let vKind := goToLower rKind
     objKind ++ "s".data == vKind || objKind ++ "es".data == vKind ||
       vKind ++ "s".data == objKind || vKind == objKind) &&
    (rName == [] || p2 == rName)
  | _ => false

/-- The fallback-tier condition: a well-formed key for the given template. -/
def fallbackTierPred (templateName : Str) (e : Str × JValue) : Bool :=
  match goSplitN3 e.1 '/' with
  | [p0, _, _] => p0 == templateName
  | _ => false

/-- `matchDesiredState`: three-tier lookup (exact, flexible, unique-per-template
fallback) over one iteration order of the index. -/
def matchDesiredState (desiredStates : DesiredStateIndex) (templateName rKind rName : Str) :
    Option JValue :=
  match desiredStates.find? (exactTierPred templateName rKind rName) with
  | some e => some e.2
  | none =>
    match desiredStates.find? (flexTierPred templateName rKind rName) with
    | some e => some e.2
    | none =>
      match desiredStates.filter (fallbackTierPred templateName) with
      | [e] => some e.2
      | _ => none

/-! ## Suggested next-step tool calls -/

/-- `subscriptionRef`. -/
structure subscriptionRef where
  name : Str
  ns : Str

/-- `findSubscriptionInDesiredStates`: first index value whose kind folds to
`Subscription` and that carries a non-empty metadata name. -/
def findSubscriptionInDesiredStates : DesiredStateIndex → Option subscriptionRef
  | [] => none
  | (_, desired) :: rest =>
    let kind := asStr (jGet desired ("kind".data))
    if goEqualFold kind ("Subscription".data) then
      match asObj (jGet desired ("metadata".data)) with
      | none => findSubscriptionInDesiredStates rest
      | some meta =>
        let name := asStr (jLookup meta ("name".data))
        if name = [] then findSubscriptionInDesiredStates rest
        else some ⟨name, asStr (jLookup meta ("namespace".data))⟩
    else findSubscriptionInDesiredStates rest

/-- `buildOLMToolCall`: the `trace_olm_subscription` suggestion, resolving an
aggregate Operator CR to its Subscription via the index or a dotted name. -/
def buildOLMToolCall (rKind rName rNS clusterName : Str) (desiredStates : DesiredStateIndex) :
    suggestedCall :=
  let isOperatorCR := goEqualFold rKind ("operators".data) ||
    goEqualFold rKind ("Operator".data) ||
    goEqualFold rKind ("operators.operators.coreos.com".data)
  let subPair :=
    if isOperatorCR then
      match findSubscriptionInDesiredStates desiredStates with
      | some sub => (sub.name, if sub.ns ≠ [] then sub.ns else rNS)
      | none =>
        if goContains rName (".".data) then
          match goSplitN2 rName '.' with
          | [a, b] => (a, b)
          | _ => (rName, rNS)
        else (rName, rNS)
    else (rName, rNS)
  let subName := subPair.1
  let subNS := if subPair.2 = [] then "openshift-operators".data else subPair.2
  ⟨"openshift-mcp-server".data, "trace_olm_subscription".data,
   [("subscription_name".data, JValue.str subName),
    ("subscription_namespace".data, JValue.str subNS),
    ("cluster".data, JValue.str clusterName)]⟩

/-- `buildSuggestedCall`: Go mutates `issue.ViolationType` in its OLM branch,
so the model returns the (possibly promoted) violation type alongside the call. -/
def buildSuggestedCall (violationType rKind rName rNS clusterName : Str)
    (desiredStates : DesiredStateIndex) : Option suggestedCall × Str :=
  let isOLM := violationType == violationOLMStuck || isOLMKind rKind
  if isOLM && rName != [] then
    (some (buildOLMToolCall rKind rName rNS clusterName desiredStates), violationOLMStuck)
  else if rKind != [] && rName != [] then
    let args := [("resource".data, JValue.str (goToLower rKind ++ "/".data ++ rName)),
                 ("cluster".data, JValue.str clusterName),
                 ("clean_metadata".data, JValue.bool true)]
    let args := if rNS != [] then args ++ [("namespace".data, JValue.str rNS)] else args
    (some ⟨"openshift-mcp-server".data, "resources_get".data, args⟩, violationType)
  else if rKind != [] then
    let args := [("resource".data, JValue.str (goToLower rKind)),
                 ("cluster".data, JValue.str clusterName),
                 ("clean_metadata".data, JValue.bool true)]
    let args := if rNS != [] then args ++ [("namespace".data, JValue.str rNS)] else args
    (some ⟨"openshift-mcp-server".data, "resources_list".data, args⟩, violationType)
  else (none, violationType)

/-- `classifyAndEnrich`: strips everything up to and including the first
`"violation - "` before parsing the resource triple, classifies over the full
lower-cased message, attaches the matched desired state, and builds (and
possibly promotes the type through) the suggested call. -/
def classifyAndEnrich (issue : diagnosedIssue) (msg clusterName templateName : Str)
    (desiredStates : DesiredStateIndex) : diagnosedIssue :=
  let lower := goToLower msg
  let violationMsg :=
    let idx := goIndex msg ("violation - ".data)
    if idx ≥ 0 then msg.drop (idx.toNat + ("violation - ".data).length) else msg
  let p := parseViolationResource violationMsg
  let rKind := p.1
  let rName := p.2.1
  let rNS := p.2.2
  let vtype := classifyViolationMessage lower
  let desired := matchDesiredState desiredStates templateName rKind rName
  let callAndType := buildSuggestedCall vtype rKind rName rNS clusterName desiredStates
  { issue with
      resourceKind := rKind
      resourceName := rName
      resourceNamespace := rNS
      violationType := callAndType.2
      desiredState := desired
      suggestedToolCall := callAndType.1 }

/-! ## Desired-state extraction -/

/-- Go map assignment `states[key] = desired`: replace an existing key in
place, otherwise append. -/
def mapUpsert (m : DesiredStateIndex) (k : Str) (v : JValue) : DesiredStateIndex :=
  if m.any (fun e => e.1 == k) then
    m.map (fun e => if e.1 == k then (k, v) else e)
  else m ++ [(k, v)]

/-- Inner loop of `extractDesiredStates` over one template's `object-templates`. -/
def extractObjectTemplates (templateName : Str) (acc : DesiredStateIndex) :
    List JValue → DesiredStateIndex
  | [] => acc
  | ot :: rest =>
    match ot with
    | .obj otF =>
      match asObj (jLookup otF ("objectDefinition".data)) with
      | none => extractObjectTemplates templateName acc rest
      | some desiredF =>
        let rKind := asStr (jLookup desiredF ("kind".data))
        let rMeta := asObj (jLookup desiredF ("metadata".data))
        let rName := asStr (match rMeta with | some m => jLookup m ("name".data) | none => none)
        let key := templateName ++ "/".data ++ rKind ++ "/".data ++ rName
        extractObjectTemplates templateName (mapUpsert acc key (JValue.obj desiredF)) rest
    | _ => extractObjectTemplates templateName acc rest

/-- Outer loop of `extractDesiredStates` over `spec.policy-templates`. -/
def extractTemplates (acc : DesiredStateIndex) : List JValue → DesiredStateIndex
  | [] => acc
  | t :: rest =>
    match t with
    | .obj tF =>
      match nestedMap (JValue.obj tF) [("objectDefinition".data)] with
      | none => extractTemplates acc rest
      | some objDefF =>
        let meta := asObj (jLookup objDefF ("metadata".data))
        let templateName := asStr (match meta with | some m => jLookup m ("name".data) | none => none)
        let kind := asStr (jLookup objDefF ("kind".data))
        if kind = "ConfigurationPolicy".data then
          match asObj (jLookup objDefF ("spec".data)) with
          | none => extractTemplates acc rest
          | some specF =>
            match jLookup specF ("object-templates".data) with
            | some (.arr ots) =>
              extractTemplates (extractObjectTemplates templateName acc ots) rest
            | _ => extractTemplates acc rest
        else extractTemplates acc rest
    | _ => extractTemplates acc rest

/-- Model of `extractDesiredStates`: pulls each ConfigurationPolicy
object-template's embedded `objectDefinition`, keyed `templateName/kind/name`. -/
def extractDesiredStates (policy : JValue) : DesiredStateIndex :=
  extractTemplates [] (nestedSlice policy [("spec".data), ("policy-templates".data)])

/-! ## Per-cluster aggregation

Go panics are modelled as `Except.error`: the unchecked type assertion
`dMap["templateMeta"].(map[string]any)` in `enrichClusterDiagnosisFromPolicy`
panics whenever a `status.details` entry is a map without a map-valued
`templateMeta` field, aborting the whole request. -/

/-- Error value standing for the Go runtime panic raised by a failed
single-value type assertion. -/
def panicTemplateMeta : Str :=
  "panic: interface conversion on templateMeta".data

/-- Loop body of `enrichClusterDiagnosisFromPolicy` over `status.details`. -/
def processDetails (clusterName : Str) (desiredStates : DesiredStateIndex) :
    List JValue → Except Str (List diagnosedIssue)
  | [] => .ok []
  | d :: rest =>
    match d with
    | .obj dF =>
      match jLookup dF ("templateMeta".data) with
      | some (.obj tmF) =>
        let templateName := asStr (jLookup tmF ("name".data))
        let compState := asStr (jLookup dF ("compliant".data))
        if compState = complianceCompliant then processDetails clusterName desiredStates rest
        else
          match asArr (jLookup dF ("history".data)) with
          | [] => processDetails clusterName desiredStates rest
          | h :: _ =>
            match h with
            | .obj hF =>
              let msg := asStr (jLookup hF ("message".data))
              let issue0 : diagnosedIssue := ⟨[], templateName, [], [], [], msg, none, none⟩
              let issue1 := classifyAndEnrich issue0 msg clusterName templateName desiredStates
              let issue2 :=
                if issue1.message.length > maxViolationMessageLen then
                  { issue1 with message := issue1.message.take maxViolationMessageLen ++ "...".data }
                else issue1
              match processDetails clusterName desiredStates rest with
              | .error e => .error e
              | .ok is => .ok (issue2 :: is)
            | _ => processDetails clusterName desiredStates rest
      | _ => .error panicTemplateMeta
    | _ => processDetails clusterName desiredStates rest

/-- Model of `enrichClusterDiagnosisFromPolicy`: the issues appended for one
cluster from a policy's `status.details` (only the most recent history entry
of each non-compliant template is read). -/
def enrichClusterDiagnosisFromPolicy (policy : JValue) (clusterName : Str)
    (desiredStates : DesiredStateIndex) : Except Str (List diagnosedIssue) :=
  processDetails clusterName desiredStates (nestedSlice policy [("status".data), ("details".data)])

/-- Resource access used by the aggregator: fetching the propagated policy by
name in a cluster namespace either yields an object tree or an error (which
includes a context-cancellation error observed by an in-flight call). -/
abbrev FetchFn := Str → Str → Except Str JValue

/-- Dotted propagated-policy name `<rootNamespace>.<rootPolicyName>`. -/
def propagatedPolicyName (rootNS rootPolicy : Str) : Str :=
  rootNS ++ ".".data ++ rootPolicy

/-- The synthetic issue recorded when the propagated policy cannot be fetched. -/
def fetchFailureIssue (propagatedName clusterName : Str) : diagnosedIssue :=
  ⟨"unknown".data, [], [], [], [],
   "Could not fetch propagated policy ".data ++ propagatedName ++
     " in namespace ".data ++ clusterName,
   none, none⟩

/-- Model of `enrichClusterDiagnosis`: fetch the propagated policy; on error
record a single synthetic `unknown` issue, otherwise enrich from its details. -/
def enrichClusterDiagnosis (fetch : FetchFn) (cd : clusterDiagnosis)
    (rootNS rootPolicy : Str) (desiredStates : DesiredStateIndex) :
    Except Str clusterDiagnosis :=
  let propagatedName := propagatedPolicyName rootNS rootPolicy
  match fetch propagatedName cd.clusterName with
  | .error _ =>
    .ok { cd with issues := cd.issues ++ [fetchFailureIssue propagatedName cd.clusterName] }
  | .ok propagated =>
    match enrichClusterDiagnosisFromPolicy propagated cd.clusterName desiredStates with
    | .error e => .error e
    | .ok is => .ok { cd with issues := cd.issues ++ is }

/-- Loop of `buildDiagnosis` over the root policy's `status.status` entries. -/
def processStatus (fetch : FetchFn) (rootNS rootPolicy clusterFilter : Str)
    (desiredStates : DesiredStateIndex) : List JValue → Except Str (List clusterDiagnosis)
  | [] => .ok []
  | s :: rest =>
    match s with
    | .obj sF =>
      let clusterName := asStr (jLookup sF ("clustername".data))
      let state := asStr (jLookup sF ("compliant".data))
      if clusterFilter ≠ [] ∧ clusterName ≠ clusterFilter then
        processStatus fetch rootNS rootPolicy clusterFilter desiredStates rest
      else if state = complianceCompliant then
        processStatus fetch rootNS rootPolicy clusterFilter desiredStates rest
      else
        match enrichClusterDiagnosis fetch ⟨clusterName, state, []⟩ rootNS rootPolicy desiredStates with
        | .error e => .error e
        | .ok cd =>
          match processStatus fetch rootNS rootPolicy clusterFilter desiredStates rest with
          | .error e => .error e
          | .ok cds => .ok (cd :: cds)
    | _ => processStatus fetch rootNS rootPolicy clusterFilter desiredStates rest

/-- Decimal rendering used by `fmt.Sprintf("%d", _)`. -/
def natToStr (n : Nat) : Str :=
  (Nat.repr n).data

/-- The generated summary line. -/
def summaryText (totalIssues clustersLen : Nat) : Str :=
  "Found ".data ++ natToStr totalIssues ++ " issue(s) across ".data ++
    natToStr clustersLen ++
    " non-compliant cluster(s). Follow the suggested_tool_call in each issue to continue investigation.".data

/-- Final assembly of the diagnosis record with its summary line. -/
def finishDiagnosis (policyName namespace' compliance : Str)
    (clusters : List clusterDiagnosis) : diagnosis :=
  let totalIssues := (clusters.map (fun c => c.issues.length)).sum
  ⟨policyName, namespace', compliance, clusters, summaryText totalIssues clusters.length⟩

/-- Model of `buildDiagnosis`, continued: the propagated-policy fallback and
final assembly, given the clusters collected from `status.status`. -/
def buildDiagnosisRest (policy : JValue) (namespace' policyName compliance : Str)
    (desiredStates : DesiredStateIndex) (clusters : List clusterDiagnosis) :
    Except Str diagnosis :=
  if clusters.isEmpty ∧ compliance ≠ complianceCompliant then
    let ns := getNamespace policy
    if ns ≠ [] then
      match enrichClusterDiagnosisFromPolicy policy ns desiredStates with
      | .error e => .error e
      | .ok issues =>
        .ok (finishDiagnosis policyName namespace' compliance [⟨ns, compliance, issues⟩])
    else .ok (finishDiagnosis policyName namespace' compliance clusters)
  else .ok (finishDiagnosis policyName namespace' compliance clusters)

/-- Model of `buildDiagnosis`: enumerate non-compliant clusters from
`status.status` (honoring the cluster filter), fall back to the propagated
single-cluster case when that enumeration is empty and the policy itself is
non-compliant, and assemble the report. -/
def buildDiagnosis (fetch : FetchFn) (policy : JValue)
    (namespace' policyName clusterFilter : Str) : Except Str diagnosis :=
  let compliance := nestedString policy [("status".data), ("compliant".data)]
  let desiredStates := extractDesiredStates policy
  let statusList := nestedSlice policy [("status".data), ("status".data)]
  match processStatus fetch namespace' policyName clusterFilter desiredStates statusList with
  | .error e => .error e
  | .ok clusters =>
    buildDiagnosisRest policy namespace' policyName compliance desiredStates clusters

/-! ## The request boundary -/

/-- What the MCP caller of the handler observes. -/
inductive handlerOutcome where
  | errorResult (msg : Str)
  | textResult (d : diagnosis)
  | zeroValues

/-- Model of `HandleDiagnoseACMPolicy` at the request boundary. External steps
(kubeconfig resolution, client construction, policy resolution) are abstracted
into the `resolved` argument; JSON marshalling of the diagnosis record cannot
fail. The deferred `recover` only logs a panic and does not assign the
handler's unnamed return values, so a recovered panic makes the function
return the zero values — a nil tool result and a nil error — modelled as
`handlerOutcome.zeroValues`. -/
def handleDiagnoseACMPolicy (fetch : FetchFn) (resolved : Except Str (JValue × Str))
    (policyName clusterFilter : Str) : handlerOutcome :=
  if policyName = [] then .errorResult ("'policy_name' is required".data)
  else
    match resolved with
    | .error e => .errorResult e
    | .ok (policy, resolvedNS) =>
      match buildDiagnosis fetch policy resolvedNS policyName clusterFilter with
      | .error _ => .zeroValues
      | .ok diag => .textResult diag

/-! ## Concrete instances used in witnesses and counterexamples -/

/-- Concrete index for the C3 witness: one fragment for template `t1`, whose
kind and name match neither tier for the violation below. -/
def c3Index : DesiredStateIndex :=
  [("t1/ConfigMap/cm1".data, JValue.obj [("kind".data, JValue.str ("ConfigMap".data))])]

/-- Fragments for the C9 counterexample. -/
def c9FragA : JValue := JValue.str ("desired-a".data)

def c9FragB : JValue := JValue.str ("desired-b".data)

/-- A desired-state index (in one iteration order) holding two distinct map
keys that both satisfy the exact tier for violation kind `node` (kinds compare
case-insensitively) but carry different fragments. -/
def c9Index : DesiredStateIndex :=
  [("T/Node/n".data, c9FragA), ("T/node/n".data, c9FragB)]

/-- Same-fragment variant of `c9Index` for the C9 witness. -/
def c9IndexSame : DesiredStateIndex :=
  [("T/Node/n".data, c9FragA), ("T/node/n".data, c9FragA)]

/-- Fetch stub returning an empty propagated policy. -/
def c4Fetch : FetchFn := fun _ _ => .ok (.obj [])

/-- Root policy with one non-compliant cluster in `status.status`. -/
def c4Policy : JValue :=
  .obj [("status".data, .obj [
    ("compliant".data, .str ("NonCompliant".data)),
    ("status".data, .arr [
      .obj [("clustername".data, .str ("spoke-1".data)),
            ("compliant".data, .str ("NonCompliant".data))]])])]

/-- The diagnosis computed for `c4Policy`. -/
def c4Diag : diagnosis :=
  ⟨"p1".data, "ns1".data, "NonCompliant".data,
   [⟨"spoke-1".data, "NonCompliant".data, []⟩], summaryText 0 1⟩

/-- Root policy with two non-compliant clusters for C6. -/
def c6Policy : JValue :=
  .obj [("status".data, .obj [
    ("compliant".data, .str ("NonCompliant".data)),
    ("status".data, .arr [
      .obj [("clustername".data, .str ("spoke-1".data)),
            ("compliant".data, .str ("NonCompliant".data))],
      .obj [("clustername".data, .str ("spoke-2".data)),
            ("compliant".data, .str ("NonCompliant".data))]])])]

/-- Fetch that observes the caller's cancellation while fetching `spoke-1`'s
propagated policy and succeeds for every other cluster. -/
def c6Fetch : FetchFn := fun _ c =>
  if c = "spoke-1".data then .error ("context canceled".data) else .ok (.obj [])

/-- Fetch stub for C7 (never reached: the panic fires before any fetch). -/
def c7Fetch : FetchFn := fun _ _ => .ok (.obj [])

/-- A propagated policy being diagnosed directly (no `status.status`, own
namespace `sno-abi`) whose single `status.details` entry is a map without a
`templateMeta` field: the unchecked type assertion
`dMap["templateMeta"].(map[string]any)` in `enrichClusterDiagnosisFromPolicy`
panics on it. -/
def c7Policy : JValue :=
  .obj [
    ("metadata".data, .obj [("namespace".data, .str ("sno-abi".data))]),
    ("status".data, .obj [
      ("compliant".data, .str ("NonCompliant".data)),
      ("details".data, .arr [.obj [("compliant".data, .str ("NonCompliant".data))]])])]

/-- Root policy with two non-compliant clusters for C5. -/
def c5Policy : JValue :=
  .obj [("status".data, .obj [
    ("compliant".data, .str ("NonCompliant".data)),
    ("status".data, .arr [
      .obj [("clustername".data, .str ("spoke-1".data)),
            ("compliant".data, .str ("NonCompliant".data))],
      .obj [("clustername".data, .str ("spoke-2".data)),
            ("compliant".data, .str ("NonCompliant".data))]])])]

/-- Fetch for which every propagated-policy get succeeds. -/
def c5Fetch : FetchFn := fun _ _ => .ok (.obj [])

/-- Fetch identical to `c5Fetch` except that the get in `spoke-2`'s namespace
fails. -/
def c5FetchFail : FetchFn := fun _ c =>
  if c = "spoke-2".data then .error ("boom".data) else .ok (.obj [])

/-! ## Theorems -/

/-- C1: for the message `[Subscription] my-operator in namespace
openshift-operators not as specified`, diagnosed for any cluster `C` (and any
desired-state index and template), the pipeline parses kind `Subscription`,
name `my-operator`, namespace `openshift-operators`; the message-text
classification is `resource_drift` and the final violation type is promoted to
`olm_stuck` by the kind-based OLM rule; and the suggested call is
`trace_olm_subscription` with `subscription_name=my-operator`,
`subscription_namespace=openshift-operators`, `cluster=C`. -/
theorem scenarioB_subscription_drift_promoted_to_olm
    (C tmpl : Str) (ds : DesiredStateIndex) (issue0 : diagnosedIssue) :
    let msg := "[Subscription] my-operator in namespace openshift-operators not as specified".data
    let r := classifyAndEnrich issue0 msg C tmpl ds
    r.resourceKind = "Subscription".data ∧
    r.resourceName = "my-operator".data ∧
    r.resourceNamespace = "openshift-operators".data ∧
    classifyViolationMessage (goToLower msg) = violationDrift ∧
    r.violationType = violationOLMStuck ∧
    r.suggestedToolCall = some
      ⟨"openshift-mcp-server".data, "trace_olm_subscription".data,
       [("subscription_name".data, JValue.str ("my-operator".data)),
        ("subscription_namespace".data, JValue.str ("openshift-operators".data)),
        ("cluster".data, JValue.str C)]⟩ :=
  ⟨rfl, rfl, rfl, rfl, rfl, rfl⟩

/-- C8: parsing and classifying `nodes [worker-1] not found` yields kind
`nodes`, name `worker-1`, empty namespace, and violation type
`resource_missing` (for any cluster, template and index). -/
theorem scenarioA_nodes_not_found
    (C tmpl : Str) (ds : DesiredStateIndex) (issue0 : diagnosedIssue) :
    let msg := "nodes [worker-1] not found".data
    let r := classifyAndEnrich issue0 msg C tmpl ds
    r.resourceKind = "nodes".data ∧
    r.resourceName = "worker-1".data ∧
    r.resourceNamespace = [] ∧
    r.violationType = violationMissing :=
  ⟨rfl, rfl, rfl, rfl⟩

/-- C2 counterexample: the violation parsed from `subscriptions not found` has
an OLM resource kind (`subscriptions`) but an empty resource name, so the
kind-based promotion branch of `buildSuggestedCall` is not taken and the final
violation type stays `resource_missing`, not `olm_stuck`. -/
theorem olm_kind_without_name_not_promoted :
    let msg := "subscriptions not found".data
    let r := classifyAndEnrich ⟨[], [], [], [], [], msg, none, none⟩ msg
      ("c1".data) ("t1".data) []
    isOLMKind r.resourceKind = true ∧
    r.resourceName = [] ∧
    r.violationType = violationMissing ∧
    r.violationType ≠ violationOLMStuck :=
  ⟨rfl, rfl, rfl, by intro h; exact absurd h (by decide)⟩

/-- Helper: with an OLM resource kind and a non-empty resource name,
`buildSuggestedCall` takes its OLM branch and returns `olm_stuck`. -/
theorem buildSuggestedCall_snd_of_olmKind (vt rKind rName rNS c : Str)
    (ds : DesiredStateIndex) (hk : isOLMKind rKind = true) (hn : rName ≠ []) :
    (buildSuggestedCall vt rKind rName rNS c ds).2 = violationOLMStuck := by
  have h1 : (vt == violationOLMStuck || isOLMKind rKind) = true := by
    rw [hk]; exact Bool.or_true _
  have h2 : (rName != []) = true := by simpa [bne_iff_ne] using hn
  simp [buildSuggestedCall, h1, h2]

/-- C2 (amended): a diagnosed violation whose parsed resource kind matches an
OLM kind name is promoted to `olm_stuck` provided its parsed resource name is
non-empty; with an empty parsed name the message-text classification stands. -/
theorem olm_kind_with_name_promoted
    (issue0 : diagnosedIssue) (msg C tmpl : Str) (ds : DesiredStateIndex)
    (hkind : isOLMKind (classifyAndEnrich issue0 msg C tmpl ds).resourceKind = true)
    (hname : (classifyAndEnrich issue0 msg C tmpl ds).resourceName ≠ []) :
    (classifyAndEnrich issue0 msg C tmpl ds).violationType = violationOLMStuck := by
  simp only [classifyAndEnrich] at hkind hname ⊢
  exact buildSuggestedCall_snd_of_olmKind _ _ _ _ _ _ hkind hname

/-- Witness for C2 (amended): `subscriptions [my-sub] not found` parses kind
`subscriptions` (an OLM kind) with name `my-sub`, and is promoted. -/
theorem olm_kind_with_name_promoted_witness :
    (classifyAndEnrich ⟨[], [], [], [], [], [], none, none⟩
      ("subscriptions [my-sub] not found".data) ("c1".data) ("t1".data) []).violationType
      = violationOLMStuck :=
  olm_kind_with_name_promoted ⟨[], [], [], [], [], [], none, none⟩
    ("subscriptions [my-sub] not found".data) ("c1".data) ("t1".data) []
    (by decide) (by decide)

/-- C3: when no index entry satisfies the exact tier and none satisfies the
flexible tier, `matchDesiredState` returns the unique fragment keyed under the
violation's template if exactly one exists, and `none` (so `desired_state` is
omitted) when zero or more than one exist. -/
theorem matchDesiredState_fallback_unique
    (ds : DesiredStateIndex) (t k n : Str)
    (hex : ∀ e ∈ ds, exactTierPred t k n e = false)
    (hflex : ∀ e ∈ ds, flexTierPred t k n e = false) :
    (∀ e, ds.filter (fallbackTierPred t) = [e] → matchDesiredState ds t k n = some e.2) ∧
    ((ds.filter (fallbackTierPred t)).length ≠ 1 → matchDesiredState ds t k n = none) := by
  have h1 : ds.find? (exactTierPred t k n) = none :=
    List.find?_eq_none.mpr (fun e he => by simp [hex e he])
  have h2 : ds.find? (flexTierPred t k n) = none :=
    List.find?_eq_none.mpr (fun e he => by simp [hflex e he])
  constructor
  · intro e hfil
    simp only [matchDesiredState, h1, h2, hfil]
  · intro hlen
    simp only [matchDesiredState, h1, h2]
    rcases hfil : ds.filter (fallbackTierPred t) with _ | ⟨a, _ | ⟨b, l⟩⟩
    · rfl
    · exact absurd (by rw [hfil]; rfl) hlen
    · rfl

/-- Witness for C3: a violation for template `t1` with kind `widgets` and name
`w1` matches neither tier, yet receives the unique `t1` fragment via fallback. -/
theorem matchDesiredState_fallback_unique_witness :
    matchDesiredState c3Index ("t1".data) ("widgets".data) ("w1".data) =
      some (JValue.obj [("kind".data, JValue.str ("ConfigMap".data))]) :=
  (matchDesiredState_fallback_unique c3Index ("t1".data) ("widgets".data) ("w1".data)
      (by decide) (by decide)).1
    ("t1/ConfigMap/cm1".data, JValue.obj [("kind".data, JValue.str ("ConfigMap".data))]) rfl

/-- C9 counterexample: two iteration orders of the same index (a list and its
reverse, which are permutations of each other) make `matchDesiredState` return
different fragments when two distinct keys both satisfy the exact tier.
Go randomizes map iteration order, so the matcher is not deterministic as the
claim states. -/
theorem matchDesiredState_order_dependent :
    c9Index.Perm c9Index.reverse ∧
    matchDesiredState c9Index ("T".data) ("node".data) ("n".data) = some c9FragA ∧
    matchDesiredState c9Index.reverse ("T".data) ("node".data) ("n".data) = some c9FragB ∧
    c9FragA ≠ c9FragB := by
  refine ⟨?_, rfl, rfl, ?_⟩
  · show c9Index.Perm [("T/node/n".data, c9FragB), ("T/Node/n".data, c9FragA)]
    exact List.Perm.swap _ _ _
  · intro h
    simp only [c9FragA, c9FragB] at h
    injection h with h'
    exact absurd h' (by decide)

/-- C9 (amended): the matcher is invariant under reordering of the index
provided that all entries satisfying the exact-tier predicate carry the same
fragment, and likewise for the flexible tier; without that proviso, different
map iteration orders can return different fragments. -/
theorem matchDesiredState_perm_invariant
    (ds ds' : DesiredStateIndex) (t k n : Str)
    (hperm : ds'.Perm ds)
    (hex : ∀ e ∈ ds, ∀ e' ∈ ds,
      exactTierPred t k n e = true → exactTierPred t k n e' = true → e.2 = e'.2)
    (hflex : ∀ e ∈ ds, ∀ e' ∈ ds,
      flexTierPred t k n e = true → flexTierPred t k n e' = true → e.2 = e'.2) :
    matchDesiredState ds' t k n = matchDesiredState ds t k n := by
  cases hfe : ds.find? (exactTierPred t k n) with
  | some e =>
    have hpe := List.find?_some hfe
    have hme := List.mem_of_find?_eq_some hfe
    have hsome : (ds'.find? (exactTierPred t k n)).isSome :=
      List.find?_isSome.mpr ⟨e, hperm.mem_iff.mpr hme, hpe⟩
    obtain ⟨e', hfe'⟩ := Option.isSome_iff_exists.mp hsome
    have hpe' := List.find?_some hfe'
    have hme' : e' ∈ ds := hperm.mem_iff.mp (List.mem_of_find?_eq_some hfe')
    simp only [matchDesiredState, hfe, hfe']
    exact congrArg some (hex e' hme' e hme hpe' hpe)
  | none =>
    have hfe' : ds'.find? (exactTierPred t k n) = none := by
      rw [List.find?_eq_none] at hfe ⊢
      exact fun x hx => hfe x (hperm.mem_iff.mp hx)
    cases hff : ds.find? (flexTierPred t k n) with
    | some e =>
      have hpe := List.find?_some hff
      have hme := List.mem_of_find?_eq_some hff
      have hsome : (ds'.find? (flexTierPred t k n)).isSome :=
        List.find?_isSome.mpr ⟨e, hperm.mem_iff.mpr hme, hpe⟩
      obtain ⟨e', hff'⟩ := Option.isSome_iff_exists.mp hsome
      have hpe' := List.find?_some hff'
      have hme' : e' ∈ ds := hperm.mem_iff.mp (List.mem_of_find?_eq_some hff')
      simp only [matchDesiredState, hfe, hfe', hff, hff']
      exact congrArg some (hflex e' hme' e hme hpe' hpe)
    | none =>
      have hff' : ds'.find? (flexTierPred t k n) = none := by
        rw [List.find?_eq_none] at hff ⊢
        exact fun x hx => hff x (hperm.mem_iff.mp hx)
      have hpfil := hperm.filter (fallbackTierPred t)
      rcases hl : ds.filter (fallbackTierPred t) with _ | ⟨a, _ | ⟨b, l2⟩⟩
      · rw [hl] at hpfil
        have hl' := List.perm_nil.mp hpfil
        simp only [matchDesiredState, hfe, hfe', hff, hff', hl, hl']
      · rw [hl] at hpfil
        have hl' := List.perm_singleton.mp hpfil
        simp only [matchDesiredState, hfe, hfe', hff, hff', hl, hl']
      · rw [hl] at hpfil
        have hlen := hpfil.length_eq
        rcases hl' : ds'.filter (fallbackTierPred t) with _ | ⟨x, _ | ⟨y, m⟩⟩
        · rw [hl'] at hlen; exact absurd hlen (by simp)
        · rw [hl'] at hlen; exact absurd hlen (by simp)
        · simp only [matchDesiredState, hfe, hfe', hff, hff', hl, hl']

/-- Witness for C9 (amended): an index whose two exact-tier entries carry the
same fragment gives the same result in both iteration orders. -/
theorem matchDesiredState_perm_invariant_witness :
    matchDesiredState c9IndexSame.reverse ("T".data) ("node".data) ("n".data) =
      matchDesiredState c9IndexSame ("T".data) ("node".data) ("n".data) := by
  have hsnd : ∀ e ∈ c9IndexSame, e.2 = c9FragA := by
    intro e he
    rcases List.mem_cons.mp he with h | h
    · rw [h]
    · rw [List.mem_singleton.mp h]
  refine matchDesiredState_perm_invariant c9IndexSame c9IndexSame.reverse
    ("T".data) ("node".data) ("n".data) ?_ ?_ ?_
  · show List.Perm [("T/node/n".data, c9FragA), ("T/Node/n".data, c9FragA)] c9IndexSame
    exact List.Perm.swap _ _ _
  · exact fun e he e' he' _ _ => (hsnd e he).trans (hsnd e' he').symm
  · exact fun e he e' he' _ _ => (hsnd e he).trans (hsnd e' he').symm

/-- C10: when the message has its first `"violation - "` occurrence right
after a prefix `pre`, the resource kind/name/namespace are parsed from the
text `post` following that occurrence only, while the violation-type
classification (and the promotion pass feeding off it) is computed over the
entire lower-cased message including the stripped prefix. -/
theorem classifyAndEnrich_strips_prefix_classifies_full
    (pre post C tmpl : Str) (ds : DesiredStateIndex) (issue0 : diagnosedIssue)
    (h : goIndex (pre ++ "violation - ".data ++ post) ("violation - ".data) =
      (pre.length : Int)) :
    let msg := pre ++ "violation - ".data ++ post
    let r := classifyAndEnrich issue0 msg C tmpl ds
    let p := parseViolationResource post
    r.resourceKind = p.1 ∧ r.resourceName = p.2.1 ∧ r.resourceNamespace = p.2.2 ∧
    (r.suggestedToolCall, r.violationType) =
      buildSuggestedCall (classifyViolationMessage (goToLower msg)) p.1 p.2.1 p.2.2 C ds := by
  have hge : (0 : Int) ≤ (pre.length : Int) := Int.natCast_nonneg _
  have hvm : (if goIndex (pre ++ "violation - ".data ++ post) ("violation - ".data) ≥ 0
      then (pre ++ "violation - ".data ++ post).drop
        ((goIndex (pre ++ "violation - ".data ++ post) ("violation - ".data)).toNat +
          ("violation - ".data).length)
      else (pre ++ "violation - ".data ++ post)) = post := by
    rw [h, if_pos hge, Int.toNat_natCast, ← List.length_append]
    exact List.drop_left _ _
  simp only [classifyAndEnrich]
  rw [hvm]
  exact ⟨rfl, rfl, rfl, rfl⟩

/-- Witness for C10 at `pre = "abc "`, `post = "nodes [n1] x"`. -/
theorem classifyAndEnrich_strips_prefix_witness :
    let msg := "abc ".data ++ "violation - ".data ++ "nodes [n1] x".data
    let r := classifyAndEnrich ⟨[], [], [], [], [], [], none, none⟩ msg
      ("c1".data) ("t1".data) []
    let p := parseViolationResource ("nodes [n1] x".data)
    r.resourceKind = p.1 ∧ r.resourceName = p.2.1 ∧ r.resourceNamespace = p.2.2 ∧
    (r.suggestedToolCall, r.violationType) =
      buildSuggestedCall (classifyViolationMessage (goToLower msg)) p.1 p.2.1 p.2.2
        ("c1".data) [] :=
  classifyAndEnrich_strips_prefix_classifies_full ("abc ".data) ("nodes [n1] x".data)
    ("c1".data) ("t1".data) [] ⟨[], [], [], [], [], [], none, none⟩ (by decide)

/-- Helper: enrichment only appends issues, never changes a cluster entry's
compliance state. -/
theorem enrichClusterDiagnosis_state (fetch : FetchFn) (cd0 : clusterDiagnosis)
    (a b : Str) (ds : DesiredStateIndex) (cd : clusterDiagnosis)
    (h : enrichClusterDiagnosis fetch cd0 a b ds = .ok cd) :
    cd.complianceState = cd0.complianceState := by
  simp only [enrichClusterDiagnosis] at h
  split at h
  · injection h with h1
    rw [← h1]
  · split at h
    · exact absurd h (by simp)
    · injection h with h1
      rw [← h1]

/-- Helper: every cluster entry produced by the `status.status` loop has a
compliance state other than `Compliant`. -/
theorem processStatus_states (fetch : FetchFn) (a b filt : Str)
    (ds : DesiredStateIndex) :
    ∀ (l : List JValue) (cds : List clusterDiagnosis),
      processStatus fetch a b filt ds l = .ok cds →
      ∀ cd ∈ cds, cd.complianceState ≠ complianceCompliant := by
  intro l
  induction l with
  | nil =>
    intro cds h cd hmem
    simp only [processStatus] at h
    injection h with h1
    rw [← h1] at hmem
    exact absurd hmem (List.not_mem_nil cd)
  | cons s rest ih =>
    intro cds h cd hmem
    cases s with
    | obj sF =>
      simp only [processStatus] at h
      split at h
      · exact ih cds h cd hmem
      · split at h
        · exact ih cds h cd hmem
        · rename_i hstate
          split at h
          · exact absurd h (by simp)
          · rename_i cd' he
            split at h
            · exact absurd h (by simp)
            · rename_i cds0 hr
              injection h with h1
              rw [← h1] at hmem
              rcases List.mem_cons.mp hmem with hcd | hm
              · rw [hcd, enrichClusterDiagnosis_state fetch _ a b ds cd' he]
                exact hstate
              · exact ih cds0 hr cd hm
    | null => simp only [processStatus] at h; exact ih cds h cd hmem
    | bool v => simp only [processStatus] at h; exact ih cds h cd hmem
    | num v => simp only [processStatus] at h; exact ih cds h cd hmem
    | str v => simp only [processStatus] at h; exact ih cds h cd hmem
    | arr v => simp only [processStatus] at h; exact ih cds h cd hmem

/-- Helper: enrichment never changes a cluster entry's name. -/
theorem enrichClusterDiagnosis_name (fetch : FetchFn) (cd0 : clusterDiagnosis)
    (a b : Str) (ds : DesiredStateIndex) (cd : clusterDiagnosis)
    (h : enrichClusterDiagnosis fetch cd0 a b ds = .ok cd) :
    cd.clusterName = cd0.clusterName := by
  simp only [enrichClusterDiagnosis] at h
  split at h
  · injection h with h1
    rw [← h1]
  · split at h
    · exact absurd h (by simp)
    · injection h with h1
      rw [← h1]

/-- C4: every cluster entry in a diagnosis built by `buildDiagnosis` has a
compliance state different from `Compliant`, both for clusters enumerated from
the root policy's `status.status` and for the single cluster synthesized in
the propagated-policy case. -/
theorem buildDiagnosis_clusters_not_compliant (fetch : FetchFn) (policy : JValue)
    (ns pname filt : Str) (d : diagnosis)
    (h : buildDiagnosis fetch policy ns pname filt = .ok d) :
    ∀ cd ∈ d.clusters, cd.complianceState ≠ complianceCompliant := by
  intro cd hmem
  simp only [buildDiagnosis] at h
  split at h
  · exact absurd h (by simp)
  · rename_i clusters hp
    simp only [buildDiagnosisRest] at h
    split at h
    · rename_i hcond
      split at h
      · split at h
        · exact absurd h (by simp)
        · injection h with h1
          rw [← h1] at hmem
          rcases List.mem_cons.mp hmem with hcd | hm
          · rw [hcd]
            exact hcond.2
          · exact absurd hm (List.not_mem_nil cd)
      · injection h with h1
        rw [← h1] at hmem
        rw [List.isEmpty_iff.mp hcond.1] at hmem
        exact absurd hmem (List.not_mem_nil cd)
    · injection h with h1
      rw [← h1] at hmem
      exact processStatus_states fetch ns pname filt (extractDesiredStates policy) _ clusters hp cd hmem

/-- Witness for C4 on `c4Policy`: the single enumerated cluster is reported
with state `NonCompliant`, which is not `Compliant`. -/
theorem buildDiagnosis_clusters_not_compliant_witness :
    (⟨"spoke-1".data, "NonCompliant".data, []⟩ : clusterDiagnosis).complianceState ≠
      complianceCompliant :=
  buildDiagnosis_clusters_not_compliant c4Fetch c4Policy ("ns1".data) ("p1".data) [] c4Diag
    rfl ⟨"spoke-1".data, "NonCompliant".data, []⟩ (List.Mem.head _)

/-- C6 counterexample: with the fetch for `spoke-1` returning a cancellation
error, `buildDiagnosis` does not abort the cluster loop and does not return a
canceled-operation result — it returns a complete diagnosis whose `spoke-1`
entry carries the synthetic fetch-failure issue and whose `spoke-2` entry was
still processed. The aggregator never inspects the error, so cancellation is
indistinguishable from any other fetch failure. -/
theorem buildDiagnosis_ignores_cancellation :
    buildDiagnosis c6Fetch c6Policy ("ns1".data) ("p1".data) [] =
      .ok ⟨"p1".data, "ns1".data, "NonCompliant".data,
        [⟨"spoke-1".data, "NonCompliant".data,
          [fetchFailureIssue (propagatedPolicyName ("ns1".data) ("p1".data)) ("spoke-1".data)]⟩,
         ⟨"spoke-2".data, "NonCompliant".data, []⟩],
        summaryText 1 2⟩ :=
  rfl

/-- C6 (amended): a propagated-policy fetch error due to cancellation is
handled exactly like any other fetch failure: the affected cluster receives
the single synthetic `unknown` fetch-failure issue and the loop continues with
the remaining `status.status` entries, producing a diagnosis rather than a
canceled-operation result. -/
theorem processStatus_continues_after_canceled_fetch
    (fetch : FetchFn) (ns pname filt X state : Str) (dsI : DesiredStateIndex)
    (sF : List (Str × JValue)) (rest : List JValue)
    (hcancel : fetch (propagatedPolicyName ns pname) X = .error ("context canceled".data))
    (hcn : asStr (jLookup sF ("clustername".data)) = X)
    (hst : asStr (jLookup sF ("compliant".data)) = state)
    (hfilt : ¬(filt ≠ [] ∧ X ≠ filt))
    (hnc : state ≠ complianceCompliant) :
    processStatus fetch ns pname filt dsI (JValue.obj sF :: rest) =
      match processStatus fetch ns pname filt dsI rest with
      | .error e => .error e
      | .ok cds =>
        .ok (⟨X, state, [fetchFailureIssue (propagatedPolicyName ns pname) X]⟩ :: cds) := by
  simp only [processStatus, hcn, hst]
  rw [if_neg hfilt, if_neg hnc]
  simp only [enrichClusterDiagnosis, hcancel, List.nil_append]

/-- Witness for C6 (amended) at a single canceled `spoke-1` entry with an
empty remainder. -/
theorem processStatus_continues_after_canceled_fetch_witness :
    processStatus c6Fetch ("ns1".data) ("p1".data) [] []
        [JValue.obj [("clustername".data, .str ("spoke-1".data)),
                     ("compliant".data, .str ("NonCompliant".data))]] =
      match processStatus c6Fetch ("ns1".data) ("p1".data) [] [] ([] : List JValue) with
      | .error e => .error e
      | .ok cds =>
        .ok (⟨"spoke-1".data, "NonCompliant".data,
          [fetchFailureIssue (propagatedPolicyName ("ns1".data) ("p1".data)) ("spoke-1".data)]⟩
            :: cds) :=
  processStatus_continues_after_canceled_fetch c6Fetch ("ns1".data) ("p1".data) []
    ("spoke-1".data) ("NonCompliant".data) []
    [("clustername".data, .str ("spoke-1".data)),
     ("compliant".data, .str ("NonCompliant".data))] []
    rfl rfl rfl (by simp) (by decide)

/-- C7 (code bug evidence): diagnosing `c7Policy` panics inside
`buildDiagnosis` (failed type assertion on a detail entry without
`templateMeta`); the handler's deferred `recover` catches the panic so the
process does not crash, but — because the recover block does not assign the
unnamed return values — the caller receives the zero values (nil tool result
and nil error), not an error result as the spec requires. The sibling
handlers (`bios_compare.go`, `rds_compare.go`) assign `toolResult` in their
recover blocks; this handler does not. -/
theorem handleDiagnose_zero_values_on_panic :
    buildDiagnosis c7Fetch c7Policy ("ns1".data) ("p1".data) [] =
      .error panicTemplateMeta ∧
    handleDiagnoseACMPolicy c7Fetch (.ok (c7Policy, "ns1".data)) ("p1".data) [] =
      handlerOutcome.zeroValues ∧
    ∀ m, handlerOutcome.zeroValues ≠ handlerOutcome.errorResult m :=
  ⟨rfl, rfl, fun _ h => handlerOutcome.noConfusion h⟩

/-- Helper for C5: replacing the fetch by one that agrees everywhere except
cluster `X`, where it fails, leaves every non-`X` cluster entry of the status
loop unchanged and gives each `X`-named entry exactly the single synthetic
fetch-failure issue. -/
theorem processStatus_refetch_aux (fetch fetch' : FetchFn) (ns pname filt X emsg : Str)
    (dsI : DesiredStateIndex)
    (hagree : ∀ nm c, c ≠ X → fetch' nm c = fetch nm c)
    (hfail : fetch' (propagatedPolicyName ns pname) X = .error emsg) :
    ∀ (l : List JValue) (cds : List clusterDiagnosis),
      processStatus fetch ns pname filt dsI l = .ok cds →
      processStatus fetch' ns pname filt dsI l = .ok
        (cds.map (fun cd => if cd.clusterName = X
          then { cd with issues := [fetchFailureIssue (propagatedPolicyName ns pname) X] }
          else cd)) := by
  intro l
  induction l with
  | nil =>
    intro cds h
    simp only [processStatus] at h ⊢
    injection h with h1
    rw [← h1]
    rfl
  | cons s rest ih =>
    intro cds h
    cases s with
    | obj sF =>
      simp only [processStatus] at h ⊢
      by_cases h1 : filt ≠ [] ∧ asStr (jLookup sF ("clustername".data)) ≠ filt
      · rw [if_pos h1] at h ⊢
        exact ih cds h
      · rw [if_neg h1] at h ⊢
        by_cases h2 : asStr (jLookup sF ("compliant".data)) = complianceCompliant
        · rw [if_pos h2] at h ⊢
          exact ih cds h
        · rw [if_neg h2] at h ⊢
          cases he : enrichClusterDiagnosis fetch
              ⟨asStr (jLookup sF ("clustername".data)),
               asStr (jLookup sF ("compliant".data)), []⟩ ns pname dsI with
          | error e => rw [he] at h; exact absurd h (by simp)
          | ok cd =>
            rw [he] at h
            cases hr : processStatus fetch ns pname filt dsI rest with
            | error e => rw [hr] at h; exact absurd h (by simp)
            | ok cds0 =>
              rw [hr] at h
              injection h with h1'
              rw [← h1']
              have hrest := ih cds0 hr
              have hname := enrichClusterDiagnosis_name fetch _ ns pname dsI cd he
              have hstate := enrichClusterDiagnosis_state fetch _ ns pname dsI cd he
              obtain ⟨cdn, cdc, cdi⟩ := cd
              simp only at hname hstate
              subst hname hstate
              by_cases hx : asStr (jLookup sF ("clustername".data)) = X
              · rw [hx]
                have he' : enrichClusterDiagnosis fetch'
                    ⟨X, asStr (jLookup sF ("compliant".data)), []⟩ ns pname dsI =
                    .ok ⟨X, asStr (jLookup sF ("compliant".data)),
                         [fetchFailureIssue (propagatedPolicyName ns pname) X]⟩ := by
                  simp only [enrichClusterDiagnosis, hfail, List.nil_append]
                rw [he', hrest]
                simp [List.map_cons]
              · have hf : fetch' (propagatedPolicyName ns pname)
                    (asStr (jLookup sF ("clustername".data))) =
                    fetch (propagatedPolicyName ns pname)
                      (asStr (jLookup sF ("clustername".data))) := hagree _ _ hx
                have he' : enrichClusterDiagnosis fetch'
                    ⟨asStr (jLookup sF ("clustername".data)),
                     asStr (jLookup sF ("compliant".data)), []⟩ ns pname dsI =
                    .ok ⟨asStr (jLookup sF ("clustername".data)),
                         asStr (jLookup sF ("compliant".data)), cdi⟩ := by
                  simp only [enrichClusterDiagnosis, hf] at he ⊢
                  exact he
                rw [he', hrest]
                simp only [List.map_cons, if_neg hx]
    | null => simp only [processStatus] at h ⊢; exact ih cds h
    | bool v => simp only [processStatus] at h ⊢; exact ih cds h
    | num v => simp only [processStatus] at h ⊢; exact ih cds h
    | str v => simp only [processStatus] at h ⊢; exact ih cds h
    | arr v => simp only [processStatus] at h ⊢; exact ih cds h

/-- C5: if the propagated-policy get fails for cluster `X` (via a fetch that
agrees with the original everywhere else), then each `X`-named cluster entry
carries exactly one issue — the synthetic fetch-failure issue, whose type is
`unknown` and whose message references the failed propagated-policy fetch —
every other cluster entry is unchanged, and `buildDiagnosis` still returns a
diagnosis rather than an error. -/
theorem buildDiagnosis_fetch_failure_isolated (fetch fetch' : FetchFn)
    (policy : JValue) (ns pname filt X emsg : Str) (cds : List clusterDiagnosis)
    (hagree : ∀ nm c, c ≠ X → fetch' nm c = fetch nm c)
    (hfail : fetch' (propagatedPolicyName ns pname) X = .error emsg)
    (hok : processStatus fetch ns pname filt (extractDesiredStates policy)
      (nestedSlice policy [("status".data), ("status".data)]) = .ok cds)
    (hne : cds ≠ []) :
    (fetchFailureIssue (propagatedPolicyName ns pname) X).violationType = violationUnknown ∧
    processStatus fetch' ns pname filt (extractDesiredStates policy)
        (nestedSlice policy [("status".data), ("status".data)]) =
      .ok (cds.map (fun cd => if cd.clusterName = X
        then { cd with issues := [fetchFailureIssue (propagatedPolicyName ns pname) X] }
        else cd)) ∧
    buildDiagnosis fetch' policy ns pname filt =
      .ok (finishDiagnosis pname ns
        (nestedString policy [("status".data), ("compliant".data)])
        (cds.map (fun cd => if cd.clusterName = X
          then { cd with issues := [fetchFailureIssue (propagatedPolicyName ns pname) X] }
          else cd))) := by
  have hps := processStatus_refetch_aux fetch fetch' ns pname filt X emsg
    (extractDesiredStates policy) hagree hfail
    (nestedSlice policy [("status".data), ("status".data)]) cds hok
  refine ⟨rfl, hps, ?_⟩
  simp only [buildDiagnosis, hps]
  have hne' : (cds.map (fun cd => if cd.clusterName = X
      then { cd with issues := [fetchFailureIssue (propagatedPolicyName ns pname) X] }
      else cd)).isEmpty = false := by
    rcases cds with _ | ⟨c, l⟩
    · exact absurd rfl hne
    · rfl
  simp only [buildDiagnosisRest, hne']
  rw [if_neg]
  intro hcontra
  exact Bool.false_ne_true hcontra.1

/-- Witness for C5 on `c5Policy`: failing only `spoke-2`'s propagated fetch
gives `spoke-2` exactly the synthetic issue, leaves `spoke-1` unchanged, and
the request still produces a diagnosis. -/
theorem buildDiagnosis_fetch_failure_isolated_witness :
    (fetchFailureIssue (propagatedPolicyName ("ns1".data) ("p1".data))
        ("spoke-2".data)).violationType = violationUnknown ∧
    processStatus c5FetchFail ("ns1".data) ("p1".data) [] (extractDesiredStates c5Policy)
        (nestedSlice c5Policy [("status".data), ("status".data)]) =
      .ok ([⟨"spoke-1".data, "NonCompliant".data, []⟩,
            ⟨"spoke-2".data, "NonCompliant".data, []⟩].map
        (fun cd => if cd.clusterName = "spoke-2".data
          then { cd with issues := [fetchFailureIssue
            (propagatedPolicyName ("ns1".data) ("p1".data)) ("spoke-2".data)] }
          else cd)) ∧
    buildDiagnosis c5FetchFail c5Policy ("ns1".data) ("p1".data) [] =
      .ok (finishDiagnosis ("p1".data) ("ns1".data)
        (nestedString c5Policy [("status".data), ("compliant".data)])
        ([⟨"spoke-1".data, "NonCompliant".data, []⟩,
          ⟨"spoke-2".data, "NonCompliant".data, []⟩].map
          (fun cd => if cd.clusterName = "spoke-2".data
            then { cd with issues := [fetchFailureIssue
              (propagatedPolicyName ("ns1".data) ("p1".data)) ("spoke-2".data)] }
            else cd))) :=
  buildDiagnosis_fetch_failure_isolated c5Fetch c5FetchFail c5Policy
    ("ns1".data) ("p1".data) [] ("spoke-2".data) ("boom".data)
    [⟨"spoke-1".data, "NonCompliant".data, []⟩, ⟨"spoke-2".data, "NonCompliant".data, []⟩]
    (fun nm c hc => by simp only [c5FetchFail, c5Fetch]; rw [if_neg hc])
    rfl rfl (List.cons_ne_nil _ _)

end KubeCompare
